import Mathlib

/-!
Verification of the scrapling-mcp retry/stealth orchestration layer.

Shallow embedding of `src/mcp_scraper/stealth.py` and
`src/mcp_scraper/server.py`: Python strings are lists of characters,
Python exceptions are explicit error values, the external scrapling
engine is an oracle parameter, and wall-clock effects (sleeps) are
recorded in the result instead of performed.
-/

set_option autoImplicit false

namespace Scrapling

/-- Python strings are modelled as lists of characters. -/
abbrev Str := List Char

/-- `s.startswith p` (also the semantics of `re.match` on a pattern that is
a plain literal prefix, e.g. `^10\.`). First argument is the prefix. -/
def startsWithS : Str → Str → Bool
  | [], _ => true
  | _ :: _, [] => false
  | p :: ps, c :: cs => p == c && startsWithS ps cs

/-- `s.endswith p`. First argument is the suffix. -/
def endsWithS (p s : Str) : Bool :=
  startsWithS p.reverse s.reverse

/-- Python substring containment, `needle in hay`. -/
def containsSub (n : Str) : Str → Bool
  | [] => n.isEmpty
  | c :: cs => startsWithS n (c :: cs) || containsSub n cs

/-- Python `str.lower()` (ASCII case folding, which is all the code relies on). -/
def pyToLower (s : Str) : Str := s.map Char.toLower

/-- Split a string at the first occurrence of `t`; `none` when `t` is absent.
Mirrors `str.find` + slicing as used by `urllib.parse`. -/
def splitFirstAt (t : Char) : Str → Option (Str × Str)
  | [] => none
  | c :: cs =>
      if c == t then some ([], cs)
      else (splitFirstAt t cs).map (fun p => (c :: p.1, p.2))

/-! ## URLGuard: `validate_url` (stealth.py lines 746-820)

`urllib.parse.urlparse` is modelled for the pieces `validate_url` reads
(`scheme` and `netloc`), following CPython's `urlsplit`: unsafe bytes
(tab/CR/LF) are removed, the scheme is everything before the first `:`
provided it is alphanumeric starting with a letter (lower-cased), the
netloc is what follows `//` up to the next `/`, `?` or `#`, and a
bracket-mismatched netloc raises `ValueError` ("Invalid IPv6 URL"),
modelled as `none`.  `validate_url` catches any parse exception and
returns `False`. -/

/-- A valid Python URL scheme: a letter followed by letters, digits, `+`, `-`, `.`. -/
def isSchemeChars : Str → Bool
  | [] => false
  | c :: cs => c.isAlpha && cs.all (fun d => d.isAlphanum || d == '+' || d == '-' || d == '.')

/-- CPython `urlsplit` scheme splitting: split at the first `:` when the part
before it is a syntactically valid scheme (then lower-cased); otherwise the
whole URL is path and the scheme is empty. -/
def urlsplitSchemeRest (url : Str) : Str × Str :=
  match splitFirstAt ':' url with
  | some (pre, post) => if isSchemeChars pre then (pyToLower pre, post) else ([], url)
  | none => ([], url)

/-- CPython `urlsplit` netloc: present only when the remainder after the scheme
starts with `//`; runs up to the next `/`, `?` or `#`. -/
def netlocOfRest (rest : Str) : Str :=
  match rest with
  | a :: b :: r =>
      if a = '/' ∧ b = '/' then r.takeWhile (fun c => !(c == '/' || c == '?' || c == '#'))
      else []
  | _ => []

/-- CPython `urlsplit` raises `ValueError` ("Invalid IPv6 URL") when the netloc
contains `[` without `]` or vice versa. -/
def bracketMismatch (netloc : Str) : Bool :=
  (netloc.contains '[' && !netloc.contains ']')
  || (netloc.contains ']' && !netloc.contains '[')

/-- `urllib.parse.urlparse`, restricted to the `(scheme, netloc)` projection
used by `validate_url`; `none` models a raised parse exception. -/
def pyUrlparse (url : Str) : Option (Str × Str) :=
  let url' := url.filter (fun c => !(c == '\t' || c == '\r' || c == '\n'))
  let (scheme, rest) := urlsplitSchemeRest url'
  let netloc := netlocOfRest rest
  if bracketMismatch netloc then none else some (scheme, netloc)

/-- `parsed.netloc.split(":")[0].lower()` — the hostname string `validate_url`
pattern-matches on. -/
def hostOfNetloc (netloc : Str) : Str :=
  pyToLower (netloc.takeWhile (fun c => !(c == ':')))

/-- The hostname `validate_url` extracts from a URL (empty when parsing fails). -/
def hostnameOf (url : Str) : Str :=
  match pyUrlparse url with
  | some (_, netloc) => hostOfNetloc netloc
  | none => []

/-- The scheme `validate_url` extracts from a URL (empty when parsing fails). -/
def schemeOf (url : Str) : Str :=
  match pyUrlparse url with
  | some (scheme, _) => scheme
  | none => []

/-- `localhost_patterns` of `validate_url`. -/
def localhost_patterns : List Str :=
  (["localhost", "127.0.0.1", "::1", "0.0.0.0", "::", "localhost.localdomain"].map
    String.data)

/-- `re.match(r"^172\.(1[6-9]|2[0-9]|3[0-1])\.", hostname)`: the literal prefix
`172.`, a two-character group drawn from the listed character classes, then `.`. -/
def matches172Range (h : Str) : Bool :=
  match h with
  | '1' :: '7' :: '2' :: '.' :: d1 :: d2 :: '.' :: _ =>
      (d1 == '1' && ['6', '7', '8', '9'].contains d2)
      || (d1 == '2' && ['0', '1', '2', '3', '4', '5', '6', '7', '8', '9'].contains d2)
      || (d1 == '3' && ['0', '1'].contains d2)
  | _ => false

/-- The `private_patterns` loop of `validate_url`: `^10\.`, the 172.16/12 class
pattern, `^192.168.`, `^169.254.` (link-local) and `^127.` (loopback). -/
def privateCheck (h : Str) : Bool :=
  startsWithS "10.".data h
  || matches172Range h
  || startsWithS "192.168.".data h
  || startsWithS "169.254.".data h
  || startsWithS "127.".data h

/-- `re.match(r"^.*\.X$", h)`: `.*` never crosses a newline and `$` also matches
just before a final newline, so the pattern matches exactly when `h` ends with
the suffix (possibly followed by one final newline) and the part before the
suffix contains no newline. -/
def reMatchDotStarSuffix (sfx h : Str) : Bool :=
  (endsWithS sfx h && !(h.take (h.length - sfx.length)).contains '\n')
  || (endsWithS (sfx ++ ['\n']) h && !(h.take (h.length - sfx.length - 1)).contains '\n')

/-- The `internal_patterns` loop of `validate_url`: `^.*\.local$`,
`^.*\.internal$`, `^.*\.corp$`, `^.*\.lan$`. -/
def internalCheck (h : Str) : Bool :=
  reMatchDotStarSuffix ".local".data h
  || reMatchDotStarSuffix ".internal".data h
  || reMatchDotStarSuffix ".corp".data h
  || reMatchDotStarSuffix ".lan".data h

/-- `validate_url` (stealth.py 746-820): SSRF guard.  Scheme must be http or
https, netloc non-empty, and the extracted hostname must not match the
localhost list, the private-range prefixes, or the internal-TLD suffixes.
Any parse exception yields `False`. -/
def validate_url (url : Str) : Bool :=
  match pyUrlparse url with
  | none => false
  | some (scheme, netloc) =>
      if !(scheme == "http".data || scheme == "https".data) then false
      else if netloc.isEmpty then false
      else
        let hostname := hostOfNetloc netloc
        if localhost_patterns.contains hostname then false
        else if privateCheck hostname then false
        else if internalCheck hostname then false
        else true

/-! ## Pages and elements (duck-typed engine objects)

The scrapling engine returns opaque objects that the code probes with
`hasattr`/`getattr` ladders inside `try`/`except`.  An attribute access
is modelled as: attribute absent, attribute present with a value, or the
access raises. -/

/-- A probed attribute: absent (`hasattr` is false), present with value `a`,
or raising on access (caught by the enclosing `try`). -/
inductive Attr (α : Type) where
  | absent
  | val (a : α)
  | raises
deriving DecidableEq

/-- A string-or-`None`-valued attribute on an engine element. -/
abbrev AttrVal := Attr (Option Str)

/-- An element produced by the engine's DOM queries: a duck-typed attribute
bag (`text`, `inner_text`, `href`, ... looked up by name, modelling the
object's attribute dictionary) plus the optional methods the helpers probe,
the `str()` rendering, and Python truthiness. -/
structure PyObj where
  attrs : List (Str × AttrVal) := []
  /-- `get_all_text(strip=True)` method when present; `.error` = the call
  raises (caught by the enclosing `try`). -/
  get_all_text : Option (Except Unit Str) := none
  /-- `get_attribute(name)` method when present (a raising call is caught by
  the enclosing `try` and is indistinguishable from returning `None`). -/
  get_attribute : Option (Str → Option Str) := none
  /-- `attributes` dict when present and a dict (`dict.get` returns `None`
  for a missing key, indistinguishable from a `None` value). -/
  attributes : Option (List (Str × Str)) := none
  /-- `str(element)`. -/
  strrepr : Str := []
  /-- Python truthiness of the element (`if element:`). -/
  truthy : Bool := true

/-- `hasattr`/`getattr` probe on the attribute bag. -/
def probeAttr (el : PyObj) (name : Str) : Option AttrVal :=
  el.attrs.lookup name

/-- `get_element_text` (stealth.py 700-715): probe `text`, `inner_text`,
`text_content`, `textContent`, `innerHTML` in order; fall back to
`str(element) if element else None`; any raise is caught and yields `None`. -/
def get_element_text (el : PyObj) : Option Str :=
  match probeAttr el "text".data with
  | some (.val v) => v
  | some .raises => none
  | some .absent | none =>
  match probeAttr el "inner_text".data with
  | some (.val v) => v
  | some .raises => none
  | some .absent | none =>
  match probeAttr el "text_content".data with
  | some (.val v) => v
  | some .raises => none
  | some .absent | none =>
  match probeAttr el "textContent".data with
  | some (.val v) => v
  | some .raises => none
  | some .absent | none =>
  match probeAttr el "innerHTML".data with
  | some (.val v) => v
  | some .raises => none
  | some .absent | none =>
  if el.truthy then some el.strrepr else none

/-- `get_element_html` (stealth.py 718-729): probe `html`, `innerHTML`,
`outerHTML` in order; fall back to `str(element) if element else None`. -/
def get_element_html (el : PyObj) : Option Str :=
  match probeAttr el "html".data with
  | some (.val v) => v
  | some .raises => none
  | some .absent | none =>
  match probeAttr el "innerHTML".data with
  | some (.val v) => v
  | some .raises => none
  | some .absent | none =>
  match probeAttr el "outerHTML".data with
  | some (.val v) => v
  | some .raises => none
  | some .absent | none =>
  if el.truthy then some el.strrepr else none

/-- `get_element_attribute` (stealth.py 732-743): direct attribute first, then
the `get_attribute` method, then the `attributes` dict, else `None`. -/
def get_element_attribute (el : PyObj) (attr : Str) : Option Str :=
  match probeAttr el attr with
  | some (.val v) => v
  | some .raises => none
  | some .absent | none =>
  match el.get_attribute with
  | some f => f attr
  | none =>
  match el.attributes with
  | some d => d.lookup attr
  | none => none

/-- Result of `page.get(selector)`: the engine hands back nothing (`None`),
a single non-iterable element, or an iterable of elements.  A missing `get`
capability or a raising call both yield `None` through the `try`/`except`
and are covered by the caller's `none`/`gnone` handling. -/
inductive GetResult where
  | gnone
  | gsingle (el : PyObj)
  | gmany (els : List PyObj)

/-- A fetched page as the core code sees it: the probed attributes of
`_detect_cloudflare`/`_detect_block` and `format_response`, plus the DOM
query capabilities.  `css_first_title` is the result of the one call
`page.css_first("title")` that `format_response` makes (`none` = no
`css_first` capability; `some (.error ())` = the call raises). -/
structure SPage where
  html : Attr Str := .absent
  status : Attr (Option Int) := .absent
  css_first_title : Option (Except Unit (Option PyObj)) := none
  title : Attr (Option Str) := .absent
  body : Attr (Option Str) := .absent
  html_content : Attr (Option Str) := .absent
  get_all_text : Option (Except Unit Str) := none
  text : Attr (Option Str) := .absent
  get : Option (Str → GetResult) := none

/-- The Cloudflare-challenge signature list of `_detect_cloudflare`. -/
def cloudflare_indicators : List Str :=
  (["cloudflare", "checking your browser", "just a moment", "enable cookies",
    "ray id"].map String.data)

/-- The block signature list of `_detect_block`. -/
def block_indicators : List Str :=
  (["access denied", "forbidden", "rate limit", "blocked", "captcha",
    "please wait", "too many requests"].map String.data)

/-- `_detect_cloudflare` (stealth.py 450-473): lower-cased substring search of
the `html` attribute for the challenge signatures; no attribute or a raising
access yields `False`. -/
def detect_cloudflare (p : SPage) : Bool :=
  match p.html with
  | .val h => cloudflare_indicators.any (fun ind => containsSub ind (pyToLower h))
  | .absent => false
  | .raises => false

/-- `_detect_block` (stealth.py 476-500): same scheme with the block signatures. -/
def detect_block (p : SPage) : Bool :=
  match p.html with
  | .val h => block_indicators.any (fun ind => containsSub ind (pyToLower h))
  | .absent => false
  | .raises => false

/-! ## SelectorExtractor (stealth.py 584-697) -/

/-- The JSON-ish value a selector extraction produces: Python `None`, a
string, a list, or a dict (multi-attribute mode). -/
inductive ExtVal where
  | vnone
  | vstr (s : Str)
  | vlist (xs : List ExtVal)
  | vdict (kvs : List (Str × ExtVal))

/-- A Python `str | None` as an extraction value. -/
def optToExt : Option Str → ExtVal
  | some s => .vstr s
  | none => .vnone

/-- Python `s.split(t)` (all fields, possibly empty). -/
def splitAll (t : Char) : Str → List Str
  | [] => [[]]
  | c :: cs =>
      if c == t then [] :: splitAll t cs
      else
        match splitAll t cs with
        | [] => [[c]]
        | p :: ps => (c :: p) :: ps

/-- Python `s.rsplit(t, 1)` for a `t` that occurs in `s`: the part before the
last occurrence and the part after it. -/
def rsplitLastAt (t : Char) (s : Str) : Str × Str :=
  match splitFirstAt t s.reverse with
  | some (aft, bef) => (bef.reverse, aft.reverse)
  | none => (s, [])

/-- Python `s.replace(old, new)` (leftmost, non-overlapping; only ever called
with the non-empty pattern `"::html"`, so the empty-pattern corner of
`str.replace` is irrelevant). -/
def replaceSub (old new : Str) : Str → Str
  | [] => []
  | c :: cs =>
      if startsWithS old (c :: cs) then
        new ++ replaceSub old new (cs.drop (old.length - 1))
      else c :: replaceSub old new cs
termination_by s => s.length
decreasing_by
  all_goals simp [List.length_drop]
  omega

/-- `_extract_single_selector` (stealth.py 612-697): parse the `::html` /
`@attr` / `@a1@a2` suffixes, run `page.get` on the cleaned selector, then
return `None` for no match or an empty iterable, a list of per-element values
for a non-empty iterable (in engine order), or the bare scalar value for a
single non-iterable element.  An empty attribute spec (`"a@"`) is falsy in
Python and falls back to text extraction. -/
def extract_single_selector (page : SPage) (selector : Str) : ExtVal :=
  let html_extraction := containsSub "::html".data selector
  let (sel1, attr_extraction) :=
    if containsSub "@".data selector && !html_extraction then
      let parts := rsplitLastAt '@' selector
      (parts.1, some parts.2)
    else (selector, none)
  let clean_selector := replaceSub "::html".data [] sel1
  let elements :=
    match page.get with
    | some f => f clean_selector
    | none => GetResult.gnone
  match elements with
  | .gnone => .vnone
  | .gmany els =>
      if els.isEmpty then .vnone
      else if html_extraction then
        .vlist (els.map (fun el => optToExt (get_element_html el)))
      else
        match attr_extraction with
        | some spec =>
            if spec.isEmpty then .vlist (els.map (fun el => optToExt (get_element_text el)))
            else if containsSub "@".data spec then
              let attrs := splitAll '@' spec
              .vlist (els.map (fun el =>
                .vdict (attrs.map (fun a => (a, optToExt (get_element_attribute el a))))))
            else .vlist (els.map (fun el => optToExt (get_element_attribute el spec)))
        | none => .vlist (els.map (fun el => optToExt (get_element_text el)))
  | .gsingle el =>
      if html_extraction then optToExt (get_element_html el)
      else
        match attr_extraction with
        | some spec =>
            if spec.isEmpty then optToExt (get_element_text el)
            else if containsSub "@".data spec then
              let attrs := splitAll '@' spec
              .vdict (attrs.map (fun a => (a, optToExt (get_element_attribute el a))))
            else optToExt (get_element_attribute el spec)
        | none => optToExt (get_element_text el)

/-- `extract_selectors` (stealth.py 584-609): apply `extract_single_selector`
to every named selector.  (The `try` around the loop only matters for
exceptions the per-selector extraction cannot itself swallow, which the model
has none of.) -/
def extract_selectors (page : SPage) (selectors : List (Str × Str)) :
    List (Str × ExtVal) :=
  selectors.map (fun p => (p.1, extract_single_selector page p.2))

/-! ## ResponseFormatter: `format_response` (stealth.py 503-581)

The `timestamp` field is wall-clock output and is not modelled.  A `none`
in an `Option (Option _)` field means the key was left absent by an
`except: pass`. -/

/-- The flat record `format_response` builds. -/
structure FormattedResponse where
  url : Str
  /-- `status` key; outer `none` when `except: pass` left the key absent. -/
  status : Option (Option Int)
  title : Option Str
  /-- `html` key; outer `none` when the `body` access raised before the key
  was first assigned. -/
  htmlOut : Option (Option Str)
  text : Option Str
  /-- `selectors` key, present only when a non-empty selector map was given. -/
  selectorsOut : Option (List (Str × ExtVal))

/-- `format_response`: every field access on the opaque page is wrapped in
`try`/`except` so a missing or raising capability degrades to `None`/empty. -/
def format_response (page : SPage) (url : Str)
    (selectors : Option (List (Str × Str))) : FormattedResponse :=
  let status :=
    match page.status with
    | .absent => some none
    | .val v => some v
    | .raises => none
  let title :=
    match page.css_first_title with
    | some r =>
        match r with
        | .error _ => none
        | .ok none => none
        | .ok (some el) =>
            -- `if title_element:` tests Python truthiness of the element
            if !el.truthy then none
            else
              match el.get_all_text with
              | some (.ok s) => some s
              | some (.error _) => none
              | none =>
                  match probeAttr el "text".data with
                  | some (.val v) => v
                  | some .raises => none
                  | some .absent | none => if el.truthy then some el.strrepr else none
    | none =>
        match page.title with
        | .absent => none
        | .val v => v
        | .raises => none
  let htmlOut :=
    match page.body with
    | .raises => none
    | .val (some v) => some (some v)
    | .val none | .absent =>
        match page.html_content with
        | .raises => some none
        | .absent => some none
        | .val v => some v
  let textOut :=
    match page.get_all_text with
    | some (.ok s) => some s
    | some (.error _) => some []
    | none =>
        match page.text with
        | .val v => v
        | .raises => some []
        | .absent => some []
  let selectorsOut :=
    match selectors with
    | some sels => if sels.isEmpty then none else some (extract_selectors page sels)
    | none => none
  { url := url, status := status, title := title, htmlOut := htmlOut,
    text := textOut, selectorsOut := selectorsOut }

/-! ## RetryOrchestrator: `scrape_with_retry` (stealth.py 345-447)

The external engine is an oracle: for each attempt index it provides the
outcome of the first `session.fetch(url, wait_for=2)` and, in case the
Cloudflare-solve path runs, of the second `session.fetch(url, wait_for=5)`.
A raising session construction or fetch is an `exc` outcome (mapped to
`ScrapeError` by the generic handler); an `asyncio.TimeoutError` is the
`timeout` outcome.  Backoff sleeps are recorded as rational durations
`backoff_factor ** attempt + u attempt`, where `u` is the sampled
`random.uniform(0, 1)` stream. -/

/-- The error taxonomy the retry loop catches and re-raises. -/
inductive ScrapeErrK where
  | cloudflare
  | blocked
  | timeout
  | scrape
deriving DecidableEq

/-- Outcome of one engine fetch call. -/
inductive FetchOutcome where
  | ok (p : SPage)
  | timeout
  | exc

/-- What the engine does on one attempt: the first fetch, and the re-fetch
used only by the Cloudflare-solve path. -/
structure AttemptSpec where
  fetch1 : FetchOutcome
  fetch2 : FetchOutcome := .exc

/-- Result of the body of one loop iteration (stealth.py 390-418): either a
page to return or the error kind the `except` arms capture as `last_error`;
the Bool records whether the Cloudflare grace sleep (`asyncio.sleep(3)`)
happened. -/
def attemptOnce (solve_cloudflare : Bool) (a : AttemptSpec) :
    (SPage ⊕ ScrapeErrK) × Bool :=
  match a.fetch1 with
  | .timeout => (.inr .timeout, false)
  | .exc => (.inr .scrape, false)
  | .ok p1 =>
      if detect_cloudflare p1 then
        if solve_cloudflare then
          match a.fetch2 with
          | .timeout => (.inr .timeout, true)
          | .exc => (.inr .scrape, true)
          | .ok p2 =>
              if detect_block p2 then (.inr .blocked, true) else (.inl p2, true)
        else (.inr .cloudflare, false)
      else if detect_block p1 then (.inr .blocked, false)
      else (.inl p1, false)

/-- Final outcome of `scrape_with_retry`: the returned page, a re-raised
captured error, the generic `ScrapeError("Max retries exceeded")` when no
error was captured, or the `ValueError` from URL validation. -/
inductive RunOutcome where
  | page (p : SPage)
  | errLast (e : ScrapeErrK)
  | errGeneric
  | valueError

/-- Observable trace of one `scrape_with_retry` run. -/
structure RunResult where
  outcome : RunOutcome
  /-- durations of the backoff sleeps, in execution order -/
  sleeps : List ℚ
  /-- number of Cloudflare grace sleeps -/
  graceCount : Nat
  /-- number of loop iterations entered -/
  attemptsMade : Nat
  /-- proxy index assigned at the start of each attempt (recorded only when
  the proxy pool is non-empty, matching `if proxy_list and len(proxy_list) > 0`) -/
  proxyUsed : List Nat

/-- The retry loop of `scrape_with_retry`, recursing on the remaining
iterations of `for attempt in range(max_retries)`:  `attempt` is the current
0-based index, `pidx` the current proxy index, `lastErr` the captured
`last_error`.  On failure the proxy index advances (mod pool size) only for
`BlockedError` with a pool larger than one, and the backoff sleep
`backoff_factor ** attempt + uniform(0, 1)` runs only when this is not the
final attempt. -/
def scrapeGo (solve_cloudflare : Bool) (engine : Nat → AttemptSpec)
    (proxy_list : List Str) (backoff_factor : ℚ) (u : Nat → ℚ) :
    Nat → Nat → Nat → Option ScrapeErrK → RunResult
  | 0, _, _, lastErr =>
      { outcome := match lastErr with
          | some e => .errLast e
          | none => .errGeneric
        sleeps := [], graceCount := 0, attemptsMade := 0, proxyUsed := [] }
  | r + 1, attempt, pidx, _lastErr =>
      let proxyTrace := if proxy_list.isEmpty then [] else [pidx]
      match attemptOnce solve_cloudflare (engine attempt) with
      | (.inl p, grace) =>
          { outcome := .page p, sleeps := [],
            graceCount := if grace then 1 else 0,
            attemptsMade := 1, proxyUsed := proxyTrace }
      | (.inr e, grace) =>
          let pidx' :=
            if e = .blocked ∧ proxy_list.length > 1 then
              (pidx + 1) % proxy_list.length
            else pidx
          let thisSleeps :=
            if r = 0 then [] else [backoff_factor ^ attempt + u attempt]
          let rest := scrapeGo solve_cloudflare engine proxy_list backoff_factor u
            r (attempt + 1) pidx' (some e)
          { outcome := rest.outcome,
            sleeps := thisSleeps ++ rest.sleeps,
            graceCount := (if grace then 1 else 0) + rest.graceCount,
            attemptsMade := 1 + rest.attemptsMade,
            proxyUsed := proxyTrace ++ rest.proxyUsed }

/-- `scrape_with_retry`: validate the URL (raising `ValueError` on
rejection), then run up to `max_retries` attempts with classification,
backoff and proxy rotation. -/
def scrape_with_retry (url : Str) (solve_cloudflare : Bool)
    (max_retries : Nat) (backoff_factor : ℚ) (proxy_list : List Str)
    (u : Nat → ℚ) (engine : Nat → AttemptSpec) : RunResult :=
  if !validate_url url then
    { outcome := .valueError, sleeps := [], graceCount := 0,
      attemptsMade := 0, proxyUsed := [] }
  else
    scrapeGo solve_cloudflare engine proxy_list backoff_factor u
      max_retries 0 0 none

/-! ## Server layer (server.py): parameter validation and `scrape_batch`

Tool arguments arrive as dynamically typed Python values. -/

/-- A Python value as received by a tool parameter. -/
inductive PyVal where
  | vstr (s : Str)
  | vint (n : Int)
  | vfloat (q : ℚ)
  | vbool (b : Bool)
  | vnone
  | vlist (xs : List PyVal)

/-- Python `len(v)`: defined for strings and lists, a `TypeError` (`none`)
for numbers, booleans and `None`. -/
def pyLen : PyVal → Option Nat
  | .vstr s => some s.length
  | .vlist xs => some xs.length
  | _ => none

/-- `_validate_urls_list` (server.py 126-144): must be a list of 1..100
strings.  Returns the error message, or `none` when valid. -/
def validate_urls_list (urls : PyVal) : Option Str :=
  match urls with
  | .vlist xs =>
      if xs.length = 0 then some "URLs list cannot be empty".data
      else if xs.length > 100 then
        some "URLs list cannot have more than 100 items".data
      else if xs.all (fun u => match u with | .vstr _ => true | _ => false) then
        none
      else some "All URLs must be strings".data
  | _ => some "URLs must be a list".data

/-- `_validate_stealth_level` (server.py 76-90). -/
def validate_stealth_level (level : PyVal) : Option Str :=
  match level with
  | .vstr s =>
      if ["minimal".data, "standard".data, "maximum".data].contains (pyToLower s) then
        none
      else some "Stealth level must be one of: minimal, standard, maximum".data
  | _ => some "Stealth level must be a string".data

/-- Python numeric coercion for `isinstance(x, (int, float))`: `bool` is a
subclass of `int` and therefore counts as a number. -/
def pyNumVal : PyVal → Option ℚ
  | .vint n => some (n : ℚ)
  | .vfloat q => some q
  | .vbool b => some (if b then 1 else 0)
  | _ => none

/-- `_validate_delay` (server.py 110-123): a non-negative number. -/
def validate_delay (delay : PyVal) : Option Str :=
  match pyNumVal delay with
  | none => some "Delay must be a number".data
  | some q => if q < 0 then some "Delay must be non-negative".data else none

/-- `_get_stealth_config_by_level` (server.py 164-187): `level.lower()` looked
up among the three preset keys; `none` models the raised `ValueError`.  The
configuration contents are threaded into the engine call, which the batch
model absorbs into its fetch oracle. -/
def get_stealth_config_by_level (level : Str) : Option Unit :=
  if ["minimal".data, "standard".data, "maximum".data].contains (pyToLower level) then
    some ()
  else none

/-- What `scrape_with_retry` does for one batch URL, from `scrape_batch`'s
point of view: a page, or one of the exceptions its `except` arms catch. -/
inductive BatchFetchOutcome where
  | ok (p : SPage)
  | cfErr
  | blockedErr
  | timeoutErr
  | scrapeErr
  | valueErr
  | otherErr

/-- One slot of the batch `results` array (the `timestamp` field is wall
clock and not modelled). -/
structure BatchRec where
  url : Str
  status_code : Option Int := none
  title : Option Str := none
  text : Option Str := none
  htmlOut : Option Str := none
  error : Option Str := none

/-- The per-URL result record on success (server.py 1034-1039): fields read
from `format_response` output via `dict.get` (`""` default for `html`, whose
key can be absent). -/
def okRec (u : Str) (p : SPage) : BatchRec :=
  let formatted := format_response p u none
  { url := u
    status_code := formatted.status.join
    title := formatted.title
    text := formatted.text
    htmlOut := match formatted.htmlOut with | some v => v | none => some []
    error := none }

/-- The `result["error"]` message prefix per exception type (server.py
1044-1073); the interpolated `str(e)` suffix is elided. -/
def errRecordMsg : BatchFetchOutcome → Str
  | .cfErr => "Cloudflare protection detected: ".data
  | .blockedErr => "Request blocked: ".data
  | .timeoutErr => "Request timed out: ".data
  | .scrapeErr => "Scraping error: ".data
  | .valueErr => "Validation error: ".data
  | _ => "Unexpected error: ".data

/-- The `errors` list message prefix per exception type (same lines). -/
def errListMsg : BatchFetchOutcome → Str
  | .cfErr => "Cloudflare protection: ".data
  | .blockedErr => "Blocked: ".data
  | .timeoutErr => "Timeout: ".data
  | .scrapeErr => "Scraping error: ".data
  | .valueErr => "Validation: ".data
  | _ => "Unexpected: ".data

/-- A failed per-URL result record. -/
def errRec (u : Str) (msg : Str) : BatchRec :=
  { url := u, error := some msg }

/-- Placeholder record for a URL that failed `validate_url` (server.py
1082-1094). -/
def invalidRec (u : Str) : BatchRec :=
  { url := u, error := some "Invalid or disallowed URL".data }

/-- The sequential processing loop of `scrape_batch` (server.py 1004-1080)
over the validated `(index, url)` pairs: `k` numbers the engine calls,
`acc` is `results_placeholder`, then the success/failure counters and the
`errors` list (`none` index = a pre-validation entry).  The inter-item
politeness sleep is not recorded.  The dead `continue` branch for a failing
`_get_stealth_config_by_level` (unreachable once the level was validated)
is kept. -/
def batchLoop (fetchO : Nat → BatchFetchOutcome) (level : Str) :
    List (Nat × Str) → Nat → List (Option BatchRec) → Nat → Nat →
    List (Option Nat × Str) →
    List (Option BatchRec) × Nat × Nat × List (Option Nat × Str)
  | [], _, acc, succ, fail, errs => (acc, succ, fail, errs)
  | (idx, u) :: rest, k, acc, succ, fail, errs =>
      match get_stealth_config_by_level level with
      | none =>
          let msg := "Invalid stealth level".data
          batchLoop fetchO level rest (k + 1)
            (acc.set idx (some (errRec u msg))) succ (fail + 1)
            (errs ++ [(some idx, msg)])
      | some _ =>
          match fetchO k with
          | .ok p =>
              batchLoop fetchO level rest (k + 1)
                (acc.set idx (some (okRec u p))) (succ + 1) fail errs
          | e =>
              batchLoop fetchO level rest (k + 1)
                (acc.set idx (some (errRec u (errRecordMsg e)))) succ (fail + 1)
                (errs ++ [(some idx, errListMsg e)])

/-- The strings of a validated urls list. -/
def pyStrList : PyVal → List Str
  | .vlist xs => xs.filterMap (fun v => match v with | .vstr s => some s | _ => none)
  | _ => []

/-- The string inside a validated string parameter. -/
def pyStrOf : PyVal → Str
  | .vstr s => s
  | _ => []

/-- The final record `scrape_batch` returns. -/
structure BatchResult where
  total : Nat
  successful : Nat
  failed : Nat
  results : List (Option BatchRec)
  errors : List (Option Nat × Str)

/-- `_ensure_json_serializable` (server.py 1117-1154): recursively maps the
leaves of the record (NaN/inf floats to `None`, tuples to lists, unknown
objects to strings) while preserving dict keys and list lengths; on the
modelled field types every leaf maps to itself, so the function is the
identity. -/
def ensure_json_serializable (r : BatchResult) : BatchResult := r

/-- `scrape_batch` (server.py 911-1114).  The entry `logger.debug` f-string
evaluates `len(urls)` before any validation runs, so a non-sized `urls`
value raises `TypeError` out of the tool (modelled as `.error ()`).
Otherwise: validate the urls list, stealth level and delay (returning an
error record on failure); split the URLs by `validate_url`; process the
valid ones sequentially, filling `results_placeholder` slots by original
index; then fill the slots of the invalid ones and append their errors. -/
def scrape_batch (urls stealth_level delay : PyVal)
    (fetchO : Nat → BatchFetchOutcome) : Except Unit BatchResult :=
  match pyLen urls with
  | none => .error ()
  | some _ =>
    .ok <|
      match validate_urls_list urls with
      | some msg =>
          { total := 0, successful := 0, failed := 0, results := [],
            errors := [(none, msg)] }
      | none =>
        let us := pyStrList urls
        match validate_stealth_level stealth_level with
        | some msg =>
            { total := us.length, successful := 0, failed := us.length,
              results := [], errors := [(none, msg)] }
        | none =>
          match validate_delay delay with
          | some msg =>
              { total := us.length, successful := 0, failed := us.length,
                results := [], errors := [(none, msg)] }
          | none =>
            let levelStr := pyStrOf stealth_level
            let indexed := us.enum
            let validated := indexed.filter (fun p => validate_url p.2)
            let invalid := indexed.filter (fun p => !validate_url p.2)
            let init : List (Option BatchRec) := List.replicate us.length none
            let step := batchLoop fetchO levelStr validated 0 init 0 0 []
            let res2 := invalid.foldl
              (fun acc p => acc.set p.1 (some (invalidRec p.2))) step.1
            let errs2 := step.2.2.2 ++
              invalid.map (fun p => (some p.1, "Invalid or disallowed URL".data))
            ensure_json_serializable
              { total := us.length, successful := step.2.1,
                failed := step.2.2.1 + invalid.length,
                results := res2, errors := errs2 }

/-! ## Statement-side definitions

Derived notions used to state the properties: the classification of an
attempt, the expected proxy-index sequence, and concrete pages/engines for
instantiating the theorems. -/

/-- The classification of attempt `n`: the page to return or the error kind
captured as `last_error`. -/
def classifyAttempt (solve : Bool) (engine : Nat → AttemptSpec) (n : Nat) :
    SPage ⊕ ScrapeErrK :=
  (attemptOnce solve (engine n)).1

/-- The error kind captured at attempt `n`, when it fails. -/
def stepErr (solve : Bool) (engine : Nat → AttemptSpec) (n : Nat) :
    Option ScrapeErrK :=
  match classifyAttempt solve engine n with
  | .inr e => some e
  | .inl _ => none

/-- The proxy-index sequence the spec predicts: start at `start`, and advance
(with wrap-around mod the pool size) after attempt `n` exactly when attempt
`n` failed with `BlockedError` and the pool has more than one entry. -/
def proxySeq (start : Nat) (step : Nat → Option ScrapeErrK) (poolLen : Nat) :
    Nat → Nat
  | 0 => start
  | n + 1 =>
      let prev := proxySeq start step poolLen n
      if step n = some .blocked ∧ poolLen > 1 then (prev + 1) % poolLen else prev

/-- A page whose engine `get` capability always returns `res`. -/
def pageWith (res : GetResult) : SPage :=
  { get := some (fun _ => res) }

/-- A page showing a Cloudflare interstitial. -/
def cfPage : SPage :=
  { html := .val "just a moment".data }

/-- A page with unremarkable content (no challenge or block signatures). -/
def cleanPage : SPage :=
  { html := .val "hello world".data }

/-- A page with a block signature. -/
def blockedPage : SPage :=
  { html := .val "access denied".data }

/-- Engine for the C3 counterexample: a challenge on attempt 0, clean content
from attempt 1 on. -/
def engineChallengeThenClean (n : Nat) : AttemptSpec :=
  if n = 0 then { fetch1 := .ok cfPage } else { fetch1 := .ok cleanPage }

/-- Engine that reports a block on every attempt. -/
def engineAlwaysBlocked (_ : Nat) : AttemptSpec :=
  { fetch1 := .ok blockedPage }

/-- Engine that fails generically on attempt 0 and succeeds from attempt 1. -/
def engineFailThenClean (n : Nat) : AttemptSpec :=
  if n = 0 then { fetch1 := .exc } else { fetch1 := .ok cleanPage }

/-- Engine whose attempt 0 hits a challenge and, on the solve path's
re-fetch, serves clean content. -/
def engineChallengeSolved (_ : Nat) : AttemptSpec :=
  { fetch1 := .ok cfPage, fetch2 := .ok cleanPage }

/-- An anchor element with an `href` attribute, for instantiating the
selector-extraction theorems. -/
def anchorEl (href : Str) : PyObj :=
  { attrs := [("href".data, .val (some href)), ("text".data, .val (some "link".data))] }

/-! ## Helper lemmas -/

theorem toNat_ofNat_valid {n : Nat} (h : n.isValidChar) : (Char.ofNat n).toNat = n := by
  rw [Char.ofNat, dif_pos h]
  rfl

theorem toLower_eq_newline {c : Char} (h : Char.toLower c = '\n') : c = '\n' := by
  unfold Char.toLower at h
  dsimp only at h
  split at h
  · exfalso
    rename_i hc
    have hv : (c.toNat + 32).isValidChar := Or.inl (by omega)
    have h2 := congrArg Char.toNat h
    rw [toNat_ofNat_valid hv] at h2
    have h10 : ('\n' : Char).toNat = 10 := by decide
    omega
  · exact h

theorem splitFirstAt_post_subset {t : Char} :
    ∀ {s pre post : Str}, splitFirstAt t s = some (pre, post) → post ⊆ s := by
  intro s
  induction s with
  | nil => intro pre post h; simp [splitFirstAt] at h
  | cons c cs ih =>
      intro pre post h
      unfold splitFirstAt at h
      split at h
      · simp only [Option.some.injEq, Prod.mk.injEq] at h
        obtain ⟨-, h2⟩ := h
        subst h2
        exact fun a ha => List.mem_cons_of_mem c ha
      · rcases hs : splitFirstAt t cs with _ | ⟨p, q⟩ <;> rw [hs] at h
        · simp at h
        · simp only [Option.map_some', Option.some.injEq, Prod.mk.injEq] at h
          obtain ⟨-, h2⟩ := h
          subst h2
          exact fun a ha => List.mem_cons_of_mem c (ih hs ha)

theorem urlsplit_rest_subset (u : Str) : (urlsplitSchemeRest u).2 ⊆ u := by
  unfold urlsplitSchemeRest
  rcases hs : splitFirstAt ':' u with _ | ⟨pre, post⟩
  · exact fun a ha => ha
  · dsimp only
    split
    · exact splitFirstAt_post_subset hs
    · exact fun a ha => ha

theorem mem_netlocOfRest {rest : Str} {c : Char} (h : c ∈ netlocOfRest rest) :
    c ∈ rest := by
  rcases rest with _ | ⟨a, _ | ⟨b, r⟩⟩
  · simp [netlocOfRest] at h
  · simp [netlocOfRest] at h
  · unfold netlocOfRest at h
    dsimp only at h
    by_cases hab : a = '/' ∧ b = '/'
    · rw [if_pos hab] at h
      exact List.mem_cons_of_mem a (List.mem_cons_of_mem b
        ((List.takeWhile_prefix _).subset h))
    · rw [if_neg hab] at h
      simp at h

theorem pyUrlparse_netloc_sub {url scheme netloc : Str}
    (h : pyUrlparse url = some (scheme, netloc)) :
    netloc ⊆ url.filter (fun c => !(c == '\t' || c == '\r' || c == '\n')) := by
  unfold pyUrlparse at h
  dsimp only at h
  rcases hsr : urlsplitSchemeRest
      (url.filter (fun c => !(c == '\t' || c == '\r' || c == '\n'))) with ⟨sch, rest⟩
  rw [hsr] at h
  dsimp only at h
  split at h
  · simp at h
  · simp only [Option.some.injEq, Prod.mk.injEq] at h
    obtain ⟨-, h2⟩ := h
    subst h2
    intro c hc
    have h3 : c ∈ rest := mem_netlocOfRest hc
    have h4 := urlsplit_rest_subset
      (url.filter (fun c => !(c == '\t' || c == '\r' || c == '\n')))
    rw [hsr] at h4
    exact h4 h3

theorem newline_not_mem_hostnameOf (url : Str) : '\n' ∉ hostnameOf url := by
  unfold hostnameOf
  rcases hp : pyUrlparse url with _ | ⟨sch, netloc⟩
  · simp
  · intro hmem
    unfold hostOfNetloc pyToLower at hmem
    obtain ⟨d, hd, hdl⟩ := List.mem_map.mp hmem
    have hdn : d = '\n' := toLower_eq_newline hdl
    have h1 : d ∈ netloc := (List.takeWhile_prefix _).subset hd
    have h2 := pyUrlparse_netloc_sub hp h1
    have h3 := (List.mem_filter.mp h2).2
    rw [hdn] at h3
    exact absurd h3 (by decide)

theorem validate_url_true {url : Str} (h : validate_url url = true) :
    ∃ scheme netloc, pyUrlparse url = some (scheme, netloc) ∧
      hostnameOf url = hostOfNetloc netloc ∧
      schemeOf url = scheme ∧
      (scheme == "http".data || scheme == "https".data) = true ∧
      netloc.isEmpty = false ∧
      localhost_patterns.contains (hostOfNetloc netloc) = false ∧
      privateCheck (hostOfNetloc netloc) = false ∧
      internalCheck (hostOfNetloc netloc) = false := by
  unfold validate_url at h
  rcases hp : pyUrlparse url with _ | ⟨scheme, netloc⟩
  · rw [hp] at h; cases h
  · rw [hp] at h
    dsimp only at h
    cases hA : (scheme == "http".data || scheme == "https".data) with
    | false => rw [hA] at h; simp at h
    | true =>
      rw [hA] at h
      simp only [Bool.not_true] at h
      rw [if_neg (by simp)] at h
      cases hB : netloc.isEmpty with
      | true => rw [hB] at h; simp at h
      | false =>
        rw [hB] at h
        rw [if_neg (by simp)] at h
        cases hC : localhost_patterns.contains (hostOfNetloc netloc) with
        | true => rw [hC] at h; simp at h
        | false =>
          rw [hC] at h
          rw [if_neg (by simp)] at h
          cases hD : privateCheck (hostOfNetloc netloc) with
          | true => rw [hD] at h; simp at h
          | false =>
            rw [hD] at h
            rw [if_neg (by simp)] at h
            cases hE : internalCheck (hostOfNetloc netloc) with
            | true => rw [hE] at h; simp at h
            | false =>
              refine ⟨scheme, netloc, rfl, ?_, ?_, hA, hB, hC, hD, hE⟩
              · unfold hostnameOf; rw [hp]
              · unfold schemeOf; rw [hp]

theorem matches172_of_repr {n : Nat} (h16 : 16 ≤ n) (h31 : n ≤ 31) (rest : Str) :
    matches172Range ("172.".data ++ (Nat.repr n).data ++ '.' :: rest) = true := by
  interval_cases n <;> rfl

/-! ## Claim theorems: URLGuard (C4, C8, C10) -/

/-- C4, counterexample: the claim says any host ending in `.localdomain` and
the IPv6 forms `::1`/`::` are rejected, but `validate_url` accepts
`http://foo.localdomain/` (only the exact host `localhost.localdomain` is in
the blocklist) and accepts `http://::1` (the hostname is taken as the part
of the netloc before the first colon, so it can never equal `::1`). -/
theorem urlguard_localdomain_counterexample :
    endsWithS ".localdomain".data (hostnameOf "http://foo.localdomain/".data) = true ∧
    validate_url "http://foo.localdomain/".data = true ∧
    validate_url "http://::1".data = true := by decide

/-- C4 (amended): `validate_url` returns `false` for every URL whose extracted
hostname is exactly `localhost`, `127.0.0.1`, `0.0.0.0`, or
`localhost.localdomain`.  (The blocklist entries `::1` and `::` are
unreachable because the hostname is cut at the first colon of the netloc,
and names ending in `.localdomain` other than `localhost.localdomain` are
allowed.) -/
theorem urlguard_localhost_exact (url : Str)
    (h : hostnameOf url ∈ ["localhost".data, "127.0.0.1".data, "0.0.0.0".data,
      "localhost.localdomain".data]) :
    validate_url url = false := by
  cases hv : validate_url url with
  | false => rfl
  | true =>
    exfalso
    obtain ⟨scheme, netloc, -, hh, -, -, -, hC, -, -⟩ := validate_url_true hv
    rw [← hh] at hC
    have hC2 : localhost_patterns.contains (hostnameOf url) = true := by
      simp only [List.mem_cons, List.not_mem_nil, or_false] at h
      rcases h with h | h | h | h <;> rw [h] <;> decide
    rw [hC2] at hC
    cases hC

/-- C8: `validate_url` returns `false` whenever URL parsing raises, for every
scheme other than http/https, for every hostname in the private ranges
10.0.0.0/8 and 172.16.0.0/12 and 192.168.0.0/16 and the link-local range
169.254.0.0/16 (as matched by the prefix patterns of the source), and for
every hostname ending in `.local`, `.internal`, `.corp` or `.lan`. -/
theorem urlguard_reject_conditions (url : Str) :
    (pyUrlparse url = none → validate_url url = false) ∧
    (∀ scheme netloc, pyUrlparse url = some (scheme, netloc) →
      scheme ≠ "http".data → scheme ≠ "https".data → validate_url url = false) ∧
    (startsWithS "10.".data (hostnameOf url) = true → validate_url url = false) ∧
    (∀ n rest, 16 ≤ n → n ≤ 31 →
      hostnameOf url = "172.".data ++ (Nat.repr n).data ++ '.' :: rest →
      validate_url url = false) ∧
    (startsWithS "192.168.".data (hostnameOf url) = true → validate_url url = false) ∧
    (startsWithS "169.254.".data (hostnameOf url) = true → validate_url url = false) ∧
    (∀ sfx, sfx ∈ [".local".data, ".internal".data, ".corp".data, ".lan".data] →
      endsWithS sfx (hostnameOf url) = true → validate_url url = false) := by
  refine ⟨?_, ?_, ?_, ?_, ?_, ?_, ?_⟩
  · intro hp
    unfold validate_url
    rw [hp]
  · intro scheme netloc hp hs1 hs2
    cases hv : validate_url url with
    | false => rfl
    | true =>
      exfalso
      obtain ⟨s2, n2, hp2, -, -, hA, -, -, -, -⟩ := validate_url_true hv
      rw [hp] at hp2
      simp only [Option.some.injEq, Prod.mk.injEq] at hp2
      obtain ⟨hs, -⟩ := hp2
      rw [← hs] at hA
      simp [hs1, hs2] at hA
  · intro h
    cases hv : validate_url url with
    | false => rfl
    | true =>
      exfalso
      obtain ⟨scheme, netloc, -, hh, -, -, -, -, hD, -⟩ := validate_url_true hv
      rw [← hh] at hD
      unfold privateCheck at hD
      rw [h] at hD
      simp at hD
  · intro n rest h16 h31 hh
    cases hv : validate_url url with
    | false => rfl
    | true =>
      exfalso
      obtain ⟨scheme, netloc, -, hh2, -, -, -, -, hD, -⟩ := validate_url_true hv
      rw [← hh2, hh] at hD
      unfold privateCheck at hD
      rw [matches172_of_repr h16 h31 rest] at hD
      simp at hD
  · intro h
    cases hv : validate_url url with
    | false => rfl
    | true =>
      exfalso
      obtain ⟨scheme, netloc, -, hh, -, -, -, -, hD, -⟩ := validate_url_true hv
      rw [← hh] at hD
      unfold privateCheck at hD
      rw [h] at hD
      simp at hD
  · intro h
    cases hv : validate_url url with
    | false => rfl
    | true =>
      exfalso
      obtain ⟨scheme, netloc, -, hh, -, -, -, -, hD, -⟩ := validate_url_true hv
      rw [← hh] at hD
      unfold privateCheck at hD
      rw [h] at hD
      simp at hD
  · intro sfx hsfx hend
    cases hv : validate_url url with
    | false => rfl
    | true =>
      exfalso
      obtain ⟨scheme, netloc, -, hh, -, -, -, -, -, hE⟩ := validate_url_true hv
      rw [← hh] at hE
      have hnl : '\n' ∉ hostnameOf url := newline_not_mem_hostnameOf url
      have hmatch : reMatchDotStarSuffix sfx (hostnameOf url) = true := by
        unfold reMatchDotStarSuffix
        rw [hend]
        have hcc : ((hostnameOf url).take
            ((hostnameOf url).length - sfx.length)).contains '\n' = false := by
          cases hc : ((hostnameOf url).take
              ((hostnameOf url).length - sfx.length)).contains '\n' with
          | false => rfl
          | true =>
            exact absurd (List.take_subset _ _ (List.mem_of_elem_eq_true hc)) hnl
        rw [hcc]
        simp
      unfold internalCheck at hE
      simp only [List.mem_cons, List.not_mem_nil, or_false] at hsfx
      rcases hsfx with h | h | h | h <;> subst h <;> rw [hmatch] at hE <;> simp at hE

/-- Witness for C8 at concrete URLs exercising each rejection family. -/
theorem urlguard_reject_conditions_witness :
    validate_url "ftp://example.com".data = false ∧
    validate_url "http://10.1.2.3/".data = false ∧
    validate_url "http://172.16.0.1/".data = false ∧
    validate_url "http://192.168.1.1".data = false ∧
    validate_url "http://169.254.9.9".data = false ∧
    validate_url "http://a.local".data = false ∧
    validate_url "http://[::1".data = false := by
  refine ⟨?_, ?_, ?_, ?_, ?_, ?_, ?_⟩
  · exact (urlguard_reject_conditions _).2.1 "ftp".data "example.com".data
      (by decide) (by decide) (by decide)
  · exact (urlguard_reject_conditions _).2.2.1 (by decide)
  · exact (urlguard_reject_conditions _).2.2.2.1 16 "0.1".data
      (by decide) (by decide) (by decide)
  · exact (urlguard_reject_conditions _).2.2.2.2.1 (by decide)
  · exact (urlguard_reject_conditions _).2.2.2.2.2.1 (by decide)
  · exact (urlguard_reject_conditions _).2.2.2.2.2.2 ".local".data
      (by decide) (by decide)
  · exact (urlguard_reject_conditions _).1 (by decide)

/-- Witness for the amended C4 at the four blocked hostnames. -/
theorem urlguard_localhost_exact_witness :
    validate_url "http://localhost".data = false ∧
    validate_url "http://127.0.0.1".data = false ∧
    validate_url "http://0.0.0.0".data = false ∧
    validate_url "http://localhost.localdomain".data = false := by
  refine ⟨?_, ?_, ?_, ?_⟩ <;> exact urlguard_localhost_exact _ (by decide)

/-- C10: `validate_url` rejects the whole 127.0.0.0/8 loopback range — any
URL whose extracted hostname starts with the characters `127.` is refused. -/
theorem urlguard_loopback_prefix (url : Str)
    (h : startsWithS "127.".data (hostnameOf url) = true) :
    validate_url url = false := by
  cases hv : validate_url url with
  | false => rfl
  | true =>
    exfalso
    obtain ⟨scheme, netloc, -, hh, -, -, -, -, hD, -⟩ := validate_url_true hv
    rw [← hh] at hD
    unfold privateCheck at hD
    rw [h] at hD
    simp at hD

/-- Witness for C10 at `http://127.5.5.5/`. -/
theorem urlguard_loopback_prefix_witness :
    startsWithS "127.".data (hostnameOf "http://127.5.5.5/".data) = true ∧
    validate_url "http://127.5.5.5/".data = false :=
  ⟨by decide, urlguard_loopback_prefix _ (by decide)⟩

/-! ## Retry-loop lemmas -/

theorem scrapeGo_success (solve : Bool) (engine : Nat → AttemptSpec)
    (pool : List Str) (backoff : ℚ) (u : Nat → ℚ) :
    ∀ (k r a pidx : Nat) (last : Option ScrapeErrK) (p : SPage) (grace : Bool),
      k < r →
      (∀ i, i < k → ∃ e, (attemptOnce solve (engine (a + i))).1 = .inr e) →
      attemptOnce solve (engine (a + k)) = (.inl p, grace) →
      (scrapeGo solve engine pool backoff u r a pidx last).outcome = .page p ∧
      (scrapeGo solve engine pool backoff u r a pidx last).attemptsMade = k + 1 ∧
      (scrapeGo solve engine pool backoff u r a pidx last).sleeps =
        (List.range k).map (fun i => backoff ^ (a + i) + u (a + i)) := by
  intro k
  induction k with
  | zero =>
      intro r a pidx last p grace hk hfail hsucc
      obtain ⟨r', rfl⟩ : ∃ r', r = r' + 1 := ⟨r - 1, by omega⟩
      rw [Nat.add_zero] at hsucc
      unfold scrapeGo
      rw [hsucc]
      exact ⟨rfl, rfl, rfl⟩
  | succ k ih =>
      intro r a pidx last p grace hk hfail hsucc
      obtain ⟨r', rfl⟩ : ∃ r', r = r' + 1 := ⟨r - 1, by omega⟩
      obtain ⟨e, he⟩ := hfail 0 (Nat.succ_pos k)
      have he' : (attemptOnce solve (engine a)).1 = .inr e := by
        rw [Nat.add_zero] at he; exact he
      have hg0 : attemptOnce solve (engine a) =
          (.inr e, (attemptOnce solve (engine a)).2) := by
        rw [← he']
      have hr' : 1 ≤ r' := by omega
      have hfail' : ∀ i, i < k →
          ∃ e2, (attemptOnce solve (engine (a + 1 + i))).1 = .inr e2 := by
        intro i hi
        have h2 := hfail (i + 1) (by omega)
        rwa [show a + (i + 1) = a + 1 + i by omega] at h2
      have hsucc' : attemptOnce solve (engine (a + 1 + k)) = (.inl p, grace) := by
        rwa [show a + (k + 1) = a + 1 + k by omega] at hsucc
      unfold scrapeGo
      rw [hg0]
      dsimp only
      obtain ⟨o1, o2, o3⟩ := ih r' (a + 1)
        (if e = .blocked ∧ pool.length > 1 then (pidx + 1) % pool.length else pidx)
        (some e) p grace (by omega) hfail' hsucc'
      refine ⟨o1, ?_, ?_⟩
      · rw [o2]
        omega
      · rw [o3, if_neg (by omega)]
        rw [List.range_succ_eq_map, List.map_cons, List.map_map]
        have harith : ((fun i => backoff ^ (a + i) + u (a + i)) ∘ Nat.succ) =
            (fun i => backoff ^ (a + 1 + i) + u (a + 1 + i)) := by
          funext i
          simp only [Function.comp]
          rw [show a + Nat.succ i = a + 1 + i by omega]
        rw [harith, Nat.add_zero]
        rfl

theorem scrapeGo_allfail (solve : Bool) (engine : Nat → AttemptSpec)
    (pool : List Str) (backoff : ℚ) (u : Nat → ℚ) :
    ∀ (r a pidx : Nat) (last : Option ScrapeErrK),
      1 ≤ r →
      (∀ i, i < r → ∃ e, (attemptOnce solve (engine (a + i))).1 = .inr e) →
      ∃ e, (attemptOnce solve (engine (a + (r - 1)))).1 = .inr e ∧
        (scrapeGo solve engine pool backoff u r a pidx last).outcome = .errLast e ∧
        (scrapeGo solve engine pool backoff u r a pidx last).attemptsMade = r ∧
        (scrapeGo solve engine pool backoff u r a pidx last).sleeps =
          (List.range (r - 1)).map (fun i => backoff ^ (a + i) + u (a + i)) := by
  intro r
  induction r with
  | zero => intro a pidx last h; omega
  | succ r ih =>
      intro a pidx last _hr hfail
      obtain ⟨e, he⟩ := hfail 0 (Nat.succ_pos r)
      have he' : (attemptOnce solve (engine a)).1 = .inr e := by
        rw [Nat.add_zero] at he; exact he
      have hg0 : attemptOnce solve (engine a) =
          (.inr e, (attemptOnce solve (engine a)).2) := by
        rw [← he']
      rcases Nat.eq_zero_or_pos r with hr0 | hrpos
      · subst hr0
        refine ⟨e, he', ?_, ?_, ?_⟩ <;>
          · unfold scrapeGo
            rw [hg0]
            rfl
      · have hfail' : ∀ i, i < r →
            ∃ e2, (attemptOnce solve (engine (a + 1 + i))).1 = .inr e2 := by
          intro i hi
          have h2 := hfail (i + 1) (by omega)
          rwa [show a + (i + 1) = a + 1 + i by omega] at h2
        obtain ⟨e2, he2, o1, o2, o3⟩ := ih (a + 1)
          (if e = .blocked ∧ pool.length > 1 then (pidx + 1) % pool.length else pidx)
          (some e) hrpos hfail'
        refine ⟨e2, ?_, ?_, ?_, ?_⟩
        · rwa [show a + (r + 1 - 1) = a + 1 + (r - 1) by omega]
        · unfold scrapeGo
          rw [hg0]
          dsimp only
          exact o1
        · unfold scrapeGo
          rw [hg0]
          dsimp only
          rw [o2]
          omega
        · unfold scrapeGo
          rw [hg0]
          dsimp only
          rw [o3, if_neg (by omega)]
          rw [show r + 1 - 1 = (r - 1) + 1 by omega]
          rw [List.range_succ_eq_map, List.map_cons, List.map_map]
          have harith : ((fun i => backoff ^ (a + i) + u (a + i)) ∘ Nat.succ) =
              (fun i => backoff ^ (a + 1 + i) + u (a + 1 + i)) := by
            funext i
            simp only [Function.comp]
            rw [show a + Nat.succ i = a + 1 + i by omega]
          rw [harith, Nat.add_zero]
          rfl

theorem proxySeq_shift (start : Nat) (step : Nat → Option ScrapeErrK) (L : Nat) :
    ∀ i, proxySeq start step L (i + 1) =
      proxySeq (if step 0 = some .blocked ∧ L > 1 then (start + 1) % L else start)
        (fun j => step (j + 1)) L i := by
  intro i
  induction i with
  | zero => simp [proxySeq]
  | succ i ih =>
      show (let prev := proxySeq start step L (i + 1);
        if step (i + 1) = some .blocked ∧ L > 1 then (prev + 1) % L else prev) = _
      rw [show proxySeq (if step 0 = some .blocked ∧ L > 1 then (start + 1) % L
            else start) (fun j => step (j + 1)) L (i + 1) =
          (let prev := proxySeq (if step 0 = some .blocked ∧ L > 1 then
              (start + 1) % L else start) (fun j => step (j + 1)) L i;
            if step (i + 1) = some .blocked ∧ L > 1 then (prev + 1) % L else prev)
          from rfl]
      rw [ih]

theorem scrapeGo_proxy (solve : Bool) (engine : Nat → AttemptSpec)
    (pool : List Str) (backoff : ℚ) (u : Nat → ℚ) (hp : pool.isEmpty = false) :
    ∀ (r a pidx : Nat) (last : Option ScrapeErrK),
      (scrapeGo solve engine pool backoff u r a pidx last).proxyUsed =
        (List.range (scrapeGo solve engine pool backoff u r a pidx last).attemptsMade).map
          (proxySeq pidx (fun j => stepErr solve engine (a + j)) pool.length) := by
  intro r
  induction r with
  | zero => intro a pidx last; rfl
  | succ r ih =>
      intro a pidx last
      rcases hA : attemptOnce solve (engine a) with ⟨res, g⟩
      rcases res with p | e
      · unfold scrapeGo
        rw [hA]
        dsimp only
        rw [hp]
        rfl
      · unfold scrapeGo
        rw [hA]
        dsimp only
        rw [hp]
        have hstep0 : stepErr solve engine (a + 0) = some e := by
          unfold stepErr classifyAttempt
          rw [Nat.add_zero, hA]
        rw [ih (a + 1)
          (if e = .blocked ∧ pool.length > 1 then (pidx + 1) % pool.length else pidx)
          (some e)]
        rw [show 1 + (scrapeGo solve engine pool backoff u r (a + 1)
            (if e = .blocked ∧ pool.length > 1 then (pidx + 1) % pool.length else pidx)
            (some e)).attemptsMade =
          (scrapeGo solve engine pool backoff u r (a + 1)
            (if e = .blocked ∧ pool.length > 1 then (pidx + 1) % pool.length else pidx)
            (some e)).attemptsMade + 1 by omega]
        have hfun : (proxySeq pidx (fun j => stepErr solve engine (a + j)) pool.length
              ∘ Nat.succ) =
            proxySeq (if e = .blocked ∧ pool.length > 1 then
                (pidx + 1) % pool.length else pidx)
              (fun j => stepErr solve engine (a + 1 + j)) pool.length := by
          funext i
          simp only [Function.comp]
          rw [show Nat.succ i = i + 1 from rfl]
          rw [proxySeq_shift]
          congr 1
          · rw [hstep0]
            simp only [Option.some.injEq]
          · funext j
            rw [show a + (j + 1) = a + 1 + j by omega]
        rw [List.range_succ_eq_map, List.map_cons, List.map_map, hfun]
        rfl

theorem scrape_with_retry_eq {url : Str} (solve : Bool) (max_retries : Nat)
    (backoff : ℚ) (pool : List Str) (u : Nat → ℚ) (engine : Nat → AttemptSpec)
    (hurl : validate_url url = true) :
    scrape_with_retry url solve max_retries backoff pool u engine =
      scrapeGo solve engine pool backoff u max_retries 0 0 none := by
  unfold scrape_with_retry
  rw [hurl]
  rfl

/-! ## Claim theorems: RetryOrchestrator (C1, C2, C3) -/

/-- C1: in `scrape_with_retry`, after each failed attempt except the last the
loop sleeps exactly `backoff_factor ** attempt_index + uniform(0,1)` seconds
(0-based index, so the first wait is `backoff^0 + jitter`), no backoff sleep
follows the successful attempt or the final failed attempt, and the page of
the first successful attempt is returned immediately with no further
attempts. -/
theorem retry_backoff_schedule (url : Str) (solve : Bool) (max_retries : Nat)
    (backoff_factor : ℚ) (proxy_list : List Str) (u : Nat → ℚ)
    (engine : Nat → AttemptSpec) (hurl : validate_url url = true) :
    (∀ k p grace, k < max_retries →
      (∀ i, i < k → ∃ e, (attemptOnce solve (engine i)).1 = .inr e) →
      attemptOnce solve (engine k) = (.inl p, grace) →
      (scrape_with_retry url solve max_retries backoff_factor proxy_list u
        engine).outcome = .page p ∧
      (scrape_with_retry url solve max_retries backoff_factor proxy_list u
        engine).attemptsMade = k + 1 ∧
      (scrape_with_retry url solve max_retries backoff_factor proxy_list u
        engine).sleeps =
        (List.range k).map (fun i => backoff_factor ^ i + u i)) ∧
    ((∀ i, i < max_retries → ∃ e, (attemptOnce solve (engine i)).1 = .inr e) →
      1 ≤ max_retries →
      (scrape_with_retry url solve max_retries backoff_factor proxy_list u
        engine).attemptsMade = max_retries ∧
      (scrape_with_retry url solve max_retries backoff_factor proxy_list u
        engine).sleeps =
        (List.range (max_retries - 1)).map (fun i => backoff_factor ^ i + u i)) := by
  rw [scrape_with_retry_eq solve max_retries backoff_factor proxy_list u engine hurl]
  constructor
  · intro k p grace hk hfail hsucc
    have h := scrapeGo_success solve engine proxy_list backoff_factor u
      k max_retries 0 0 none p grace hk
      (by intro i hi; simpa using hfail i hi) (by simpa using hsucc)
    simpa using h
  · intro hfail hmax
    obtain ⟨e, -, -, o2, o3⟩ := scrapeGo_allfail solve engine proxy_list
      backoff_factor u max_retries 0 0 none hmax
      (by intro i hi; simpa using hfail i hi)
    constructor
    · exact o2
    · simpa using o3

/-- Witness for C1: an engine that fails once and succeeds on attempt 2
returns that page after exactly 2 attempts and 1 backoff sleep of
`backoff^0 + jitter`. -/
theorem retry_backoff_schedule_witness :
    (scrape_with_retry "http://example.com/".data false 3 (3/2) []
      (fun _ => 1/2) engineFailThenClean).outcome = .page cleanPage ∧
    (scrape_with_retry "http://example.com/".data false 3 (3/2) []
      (fun _ => 1/2) engineFailThenClean).attemptsMade = 2 ∧
    (scrape_with_retry "http://example.com/".data false 3 (3/2) []
      (fun _ => 1/2) engineFailThenClean).sleeps =
      (List.range 1).map (fun i => (3/2 : ℚ) ^ i + (fun _ => (1/2 : ℚ)) i) := by
  have h := (retry_backoff_schedule "http://example.com/".data false 3 (3/2) []
    (fun _ => 1/2) engineFailThenClean (by decide)).1 1 cleanPage false
    (by omega)
    (by intro i hi; interval_cases i; exact ⟨.scrape, rfl⟩)
    rfl
  exact ⟨h.1, h.2.1, h.2.2⟩

/-- C2: the proxy index used on each attempt follows `proxySeq`: it advances
(wrapping mod the pool size) exactly after an attempt that failed with
`BlockedError` when the pool has more than one entry, and never on
challenge, timeout, or other errors; when all attempts fail the last
captured error is re-raised, and the generic `ScrapeError` appears only
when no attempt ran (`max_retries = 0`). -/
theorem retry_proxy_rotation (url : Str) (solve : Bool) (max_retries : Nat)
    (backoff_factor : ℚ) (proxy_list : List Str) (u : Nat → ℚ)
    (engine : Nat → AttemptSpec) (hurl : validate_url url = true) :
    (proxy_list.isEmpty = false →
      (scrape_with_retry url solve max_retries backoff_factor proxy_list u
        engine).proxyUsed =
      (List.range (scrape_with_retry url solve max_retries backoff_factor
          proxy_list u engine).attemptsMade).map
        (proxySeq 0 (stepErr solve engine) proxy_list.length)) ∧
    ((∀ i, i < max_retries → ∃ e, (attemptOnce solve (engine i)).1 = .inr e) →
      1 ≤ max_retries →
      ∃ e, (attemptOnce solve (engine (max_retries - 1))).1 = .inr e ∧
        (scrape_with_retry url solve max_retries backoff_factor proxy_list u
          engine).outcome = .errLast e ∧
        (scrape_with_retry url solve max_retries backoff_factor proxy_list u
          engine).attemptsMade = max_retries) ∧
    (max_retries = 0 →
      (scrape_with_retry url solve max_retries backoff_factor proxy_list u
        engine).outcome = .errGeneric) := by
  rw [scrape_with_retry_eq solve max_retries backoff_factor proxy_list u engine hurl]
  refine ⟨?_, ?_, ?_⟩
  · intro hp
    have h := scrapeGo_proxy solve engine proxy_list backoff_factor u hp
      max_retries 0 0 none
    rw [h]
    have h2 : (fun j => stepErr solve engine (0 + j)) = stepErr solve engine := by
      funext j
      rw [Nat.zero_add]
    rw [h2]
  · intro hfail hmax
    obtain ⟨e, he, o1, o2, -⟩ := scrapeGo_allfail solve engine proxy_list
      backoff_factor u max_retries 0 0 none hmax
      (by intro i hi; simpa using hfail i hi)
    exact ⟨e, by simpa using he, o1, o2⟩
  · intro h0
    subst h0
    rfl

/-- Witness for C2: a 3-entry pool with an always-blocked engine uses proxy
indices 0, 1, 2 on the three attempts and re-raises `BlockedError`. -/
theorem retry_proxy_rotation_witness :
    (scrape_with_retry "http://example.com/".data false 3 (3/2)
      ["p0".data, "p1".data, "p2".data] (fun _ => 0)
      engineAlwaysBlocked).proxyUsed = [0, 1, 2] ∧
    (scrape_with_retry "http://example.com/".data false 3 (3/2)
      ["p0".data, "p1".data, "p2".data] (fun _ => 0)
      engineAlwaysBlocked).outcome = .errLast .blocked := by
  have h := retry_proxy_rotation "http://example.com/".data false 3 (3/2)
    ["p0".data, "p1".data, "p2".data] (fun _ => 0) engineAlwaysBlocked (by decide)
  have hfail : ∀ i, i < 3 →
      ∃ e, (attemptOnce false (engineAlwaysBlocked i)).1 = .inr e :=
    fun i _ => ⟨.blocked, rfl⟩
  obtain ⟨e, he, o1, o2⟩ := h.2.1 hfail (by omega)
  have heb : e = .blocked := by
    have h3 : (attemptOnce false (engineAlwaysBlocked 2)).1 = .inr .blocked := rfl
    rw [h3] at he
    exact (Sum.inr.inj he).symm
  constructor
  · have hp := h.1 rfl
    rw [o2] at hp
    rw [hp]
    decide
  · rw [heb] at o1
    exact o1

/-- C3, counterexample: the claim says a challenge with `solve_challenge`
false is terminal, but the loop catches `CloudflareError` and keeps
retrying — with a challenge on attempt 1 and clean content on attempt 2,
the run makes a second attempt and returns its page. -/
theorem challenge_terminal_counterexample :
    detect_cloudflare cfPage = true ∧
    (attemptOnce false (engineChallengeThenClean 0)).1 = .inr .cloudflare ∧
    (scrape_with_retry "http://example.com/".data false 3 (3/2) [] (fun _ => 0)
      engineChallengeThenClean).attemptsMade = 2 ∧
    (scrape_with_retry "http://example.com/".data false 3 (3/2) [] (fun _ => 0)
      engineChallengeThenClean).outcome = .page cleanPage :=
  ⟨rfl, rfl, rfl, rfl⟩

/-- C3 (amended): when a fetched page is classified as a challenge and
`solve_cloudflare` is true, the attempt sleeps the fixed grace period and
re-fetches once within the same attempt (no second proxy selection, no
backoff), returning the re-fetched page when it is clean; when
`solve_cloudflare` is false the attempt raises `CloudflareError`, which the
retry loop catches as the captured error — further attempts continue after
backoff, and only after all `max_retries` attempts fail that way is
`CloudflareError` re-raised. -/
theorem challenge_handling (url : Str) (max_retries : Nat) (backoff : ℚ)
    (proxy_list : List Str) (u : Nat → ℚ) (engine : Nat → AttemptSpec)
    (hurl : validate_url url = true) :
    (∀ p1 p2, engine 0 = { fetch1 := .ok p1, fetch2 := .ok p2 } →
      detect_cloudflare p1 = true → detect_block p2 = false → 1 ≤ max_retries →
      (scrape_with_retry url true max_retries backoff proxy_list u
        engine).outcome = .page p2 ∧
      (scrape_with_retry url true max_retries backoff proxy_list u
        engine).attemptsMade = 1 ∧
      (scrape_with_retry url true max_retries backoff proxy_list u
        engine).graceCount = 1 ∧
      (scrape_with_retry url true max_retries backoff proxy_list u
        engine).sleeps = []) ∧
    (∀ p1 a, a.fetch1 = .ok p1 → detect_cloudflare p1 = true →
      (attemptOnce false a).1 = .inr .cloudflare) ∧
    (∀ g1 p2 g2, attemptOnce false (engine 0) = (.inr .cloudflare, g1) →
      attemptOnce false (engine 1) = (.inl p2, g2) → 2 ≤ max_retries →
      (scrape_with_retry url false max_retries backoff proxy_list u
        engine).outcome = .page p2 ∧
      (scrape_with_retry url false max_retries backoff proxy_list u
        engine).attemptsMade = 2) ∧
    ((∀ i, i < max_retries →
        (attemptOnce false (engine i)).1 = .inr .cloudflare) →
      1 ≤ max_retries →
      (scrape_with_retry url false max_retries backoff proxy_list u
        engine).outcome = .errLast .cloudflare) := by
  refine ⟨?_, ?_, ?_, ?_⟩
  · intro p1 p2 he0 hcf hblk hmax
    rw [scrape_with_retry_eq true max_retries backoff proxy_list u engine hurl]
    have ha : attemptOnce true (engine 0) = (.inl p2, true) := by
      unfold attemptOnce
      rw [he0]
      dsimp only
      rw [hcf, hblk]
      rfl
    obtain ⟨r', hr⟩ : ∃ r', max_retries = r' + 1 := ⟨max_retries - 1, by omega⟩
    subst hr
    unfold scrapeGo
    rw [ha]
    exact ⟨rfl, rfl, rfl, rfl⟩
  · intro p1 a hf1 hcf
    unfold attemptOnce
    rw [hf1]
    dsimp only
    rw [hcf]
    rfl
  · intro g1 p2 g2 h0 h1 hmax
    rw [scrape_with_retry_eq false max_retries backoff proxy_list u engine hurl]
    have h := scrapeGo_success false engine proxy_list backoff u
      1 max_retries 0 0 none p2 g2 (by omega)
      (by
        intro i hi
        interval_cases i
        exact ⟨.cloudflare, by rw [Nat.add_zero, h0]⟩)
      (by rw [show (0 : Nat) + 1 = 1 from rfl, h1])
    exact ⟨h.1, h.2.1⟩
  · intro hall hmax
    rw [scrape_with_retry_eq false max_retries backoff proxy_list u engine hurl]
    obtain ⟨e, he, o1, -, -⟩ := scrapeGo_allfail false engine proxy_list
      backoff u max_retries 0 0 none hmax
      (by intro i hi; exact ⟨.cloudflare, by rw [Nat.zero_add]; exact hall i hi⟩)
    have : e = .cloudflare := by
      rw [Nat.zero_add] at he
      rw [hall (max_retries - 1) (by omega)] at he
      exact (Sum.inr.inj he).symm
    rw [this] at o1
    exact o1

/-- Witness for the amended C3: the solve path re-fetches within attempt 1,
and the non-solve path retries and succeeds on attempt 2. -/
theorem challenge_handling_witness :
    (scrape_with_retry "http://example.com/".data true 3 (3/2) [] (fun _ => 0)
      engineChallengeSolved).outcome = .page cleanPage ∧
    (scrape_with_retry "http://example.com/".data true 3 (3/2) [] (fun _ => 0)
      engineChallengeSolved).graceCount = 1 ∧
    (scrape_with_retry "http://example.com/".data false 3 (3/2) [] (fun _ => 0)
      engineChallengeThenClean).outcome = .page cleanPage ∧
    (scrape_with_retry "http://example.com/".data false 3 (3/2) [] (fun _ => 0)
      engineChallengeThenClean).attemptsMade = 2 := by
  have h1 := (challenge_handling "http://example.com/".data 3 (3/2) []
    (fun _ => 0) engineChallengeSolved (by decide)).1 cfPage cleanPage
    rfl rfl rfl (by omega)
  have h3 := (challenge_handling "http://example.com/".data 3 (3/2) []
    (fun _ => 0) engineChallengeThenClean (by decide)).2.2.1 false cleanPage
    false rfl rfl (by omega)
  exact ⟨h1.1, h1.2.2.1, h3.1, h3.2⟩

/-- C7: per-selector return shape of `_extract_single_selector`.  A `None` or
empty-iterable engine result yields `null`; a non-empty iterable yields the
list of per-element extracted values in engine order; a single non-iterable
element yields the bare scalar extracted value through the same per-element
extraction (witnessed by one function `g` used for both shapes).  In
particular `a@href` yields a bare string against one matching anchor and a
2-element list of strings against two. -/
theorem selector_shape (sel : Str) :
    (extract_single_selector (pageWith .gnone) sel = .vnone) ∧
    (extract_single_selector (pageWith (.gmany [])) sel = .vnone) ∧
    (∃ g : PyObj → ExtVal,
      (∀ els, els ≠ [] →
        extract_single_selector (pageWith (.gmany els)) sel = .vlist (els.map g)) ∧
      (∀ el, extract_single_selector (pageWith (.gsingle el)) sel = g el)) ∧
    (∀ el v, probeAttr el "href".data = some (.val (some v)) →
      extract_single_selector (pageWith (.gsingle el)) "a@href".data = .vstr v) ∧
    (∀ el1 el2 v1 v2, probeAttr el1 "href".data = some (.val (some v1)) →
      probeAttr el2 "href".data = some (.val (some v2)) →
      extract_single_selector (pageWith (.gmany [el1, el2])) "a@href".data =
        .vlist [.vstr v1, .vstr v2]) := by
  refine ⟨rfl, rfl, ?_, ?_, ?_⟩
  · refine ⟨fun el =>
      if containsSub "::html".data sel then optToExt (get_element_html el)
      else if containsSub "@".data sel && !containsSub "::html".data sel then
        (let spec := (rsplitLastAt '@' sel).2
         if spec.isEmpty then optToExt (get_element_text el)
         else if containsSub "@".data spec then
           .vdict ((splitAll '@' spec).map
             (fun a => (a, optToExt (get_element_attribute el a))))
         else optToExt (get_element_attribute el spec))
      else optToExt (get_element_text el), ?_, ?_⟩
    · intro els hne
      have hne2 : els.isEmpty = false := by
        cases els with
        | nil => exact absurd rfl hne
        | cons a l => rfl
      by_cases h1 : containsSub "::html".data sel = true <;>
        by_cases h2 : containsSub "@".data sel = true <;>
        by_cases h3 : ((rsplitLastAt '@' sel).2).isEmpty = true <;>
        by_cases h4 : containsSub "@".data ((rsplitLastAt '@' sel).2) = true <;>
        simp [extract_single_selector, pageWith, h1, h2, h3, h4, hne2]
    · intro el
      by_cases h1 : containsSub "::html".data sel = true <;>
        by_cases h2 : containsSub "@".data sel = true <;>
        by_cases h3 : ((rsplitLastAt '@' sel).2).isEmpty = true <;>
        by_cases h4 : containsSub "@".data ((rsplitLastAt '@' sel).2) = true <;>
        simp [extract_single_selector, pageWith, h1, h2, h3, h4]
  · intro el v hv
    have h : get_element_attribute el "href".data = some v := by
      unfold get_element_attribute
      rw [hv]
    calc extract_single_selector (pageWith (.gsingle el)) "a@href".data
        = optToExt (get_element_attribute el "href".data) := rfl
      _ = .vstr v := by rw [h]; rfl
  · intro el1 el2 v1 v2 hv1 hv2
    have h1 : get_element_attribute el1 "href".data = some v1 := by
      unfold get_element_attribute
      rw [hv1]
    have h2 : get_element_attribute el2 "href".data = some v2 := by
      unfold get_element_attribute
      rw [hv2]
    calc extract_single_selector (pageWith (.gmany [el1, el2])) "a@href".data
        = .vlist [optToExt (get_element_attribute el1 "href".data),
            optToExt (get_element_attribute el2 "href".data)] := rfl
      _ = .vlist [.vstr v1, .vstr v2] := by rw [h1, h2]; rfl

/-- Witness for C7: the spec's `a@href` example against one and two anchors,
plus the empty-match case. -/
theorem selector_shape_witness :
    extract_single_selector (pageWith (.gsingle (anchorEl "u1".data)))
      "a@href".data = .vstr "u1".data ∧
    extract_single_selector
      (pageWith (.gmany [anchorEl "u1".data, anchorEl "u2".data]))
      "a@href".data = .vlist [.vstr "u1".data, .vstr "u2".data] ∧
    extract_single_selector (pageWith (.gmany [])) "a@href".data = .vnone := by
  refine ⟨?_, ?_, ?_⟩
  · exact (selector_shape "a@href".data).2.2.2.1 _ _ rfl
  · exact (selector_shape "a@href".data).2.2.2.2 _ _ _ _ rfl rfl
  · exact (selector_shape "a@href".data).2.1

/-- C9: `format_response` is total over the page model — it echoes the URL
for every page, and when the `css_first("title")` DOM query raises, the
returned `title` is `null` with no exception propagating. -/
theorem format_response_total (page : SPage) (url : Str)
    (selectors : Option (List (Str × Str))) :
    (format_response page url selectors).url = url ∧
    (page.css_first_title = some (.error ()) →
      (format_response page url selectors).title = none) := by
  constructor
  · rfl
  · intro h
    unfold format_response
    rw [h]

/-- Witness for C9 at a page whose DOM query raises. -/
theorem format_response_total_witness :
    (format_response { css_first_title := some (.error ()) } "u".data none).url
      = "u".data ∧
    (format_response { css_first_title := some (.error ()) } "u".data none).title
      = none :=
  ⟨(format_response_total _ _ _).1,
   (format_response_total { css_first_title := some (.error ()) } "u".data none).2 rfl⟩

/-! ## Batch-loop lemmas -/

theorem batchLoop_cons (fetchO : Nat → BatchFetchOutcome) (level : Str)
    (j0 : Nat) (u0 : Str) (t : List (Nat × Str)) (k : Nat)
    (acc : List (Option BatchRec)) (s f : Nat) (errs : List (Option Nat × Str)) :
    ∃ rec s2 f2 errs2, rec.url = u0 ∧ s2 + f2 = s + f + 1 ∧
      batchLoop fetchO level ((j0, u0) :: t) k acc s f errs =
        batchLoop fetchO level t (k + 1) (acc.set j0 (some rec)) s2 f2 errs2 := by
  rcases hc : get_stealth_config_by_level level with _ | ⟨⟩
  · exact ⟨errRec u0 "Invalid stealth level".data, s, f + 1,
      errs ++ [(some j0, "Invalid stealth level".data)], rfl, by omega,
      by simp only [batchLoop]; rw [hc]⟩
  · rcases hf : fetchO k with p | _ | _ | _ | _ | _ | _
    · exact ⟨okRec u0 p, s + 1, f, errs, rfl, by omega,
        by simp only [batchLoop]; rw [hc, hf]⟩
    all_goals exact ⟨errRec u0 (errRecordMsg (fetchO k)), s, f + 1,
      errs ++ [(some j0, errListMsg (fetchO k))], rfl, by omega,
      by simp only [batchLoop]; rw [hc]; rw [hf]⟩

theorem batchLoop_length (fetchO : Nat → BatchFetchOutcome) (level : Str) :
    ∀ (l : List (Nat × Str)) (k : Nat) (acc : List (Option BatchRec))
      (s f : Nat) (errs : List (Option Nat × Str)),
      (batchLoop fetchO level l k acc s f errs).1.length = acc.length := by
  intro l
  induction l with
  | nil => intro k acc s f errs; rfl
  | cons hd t ih =>
      intro k acc s f errs
      obtain ⟨j0, u0⟩ := hd
      obtain ⟨rec, s2, f2, errs2, -, -, hstep⟩ :=
        batchLoop_cons fetchO level j0 u0 t k acc s f errs
      rw [hstep, ih, List.length_set]

theorem batchLoop_counts (fetchO : Nat → BatchFetchOutcome) (level : Str) :
    ∀ (l : List (Nat × Str)) (k : Nat) (acc : List (Option BatchRec))
      (s f : Nat) (errs : List (Option Nat × Str)),
      (batchLoop fetchO level l k acc s f errs).2.1 +
        (batchLoop fetchO level l k acc s f errs).2.2.1 = s + f + l.length := by
  intro l
  induction l with
  | nil => intro k acc s f errs; rfl
  | cons hd t ih =>
      intro k acc s f errs
      obtain ⟨j0, u0⟩ := hd
      obtain ⟨rec, s2, f2, errs2, -, hcount, hstep⟩ :=
        batchLoop_cons fetchO level j0 u0 t k acc s f errs
      rw [hstep]
      have := ih (k + 1) (acc.set j0 (some rec)) s2 f2 errs2
      rw [List.length_cons]
      omega

theorem batchLoop_untouched (fetchO : Nat → BatchFetchOutcome) (level : Str) :
    ∀ (l : List (Nat × Str)) (k : Nat) (acc : List (Option BatchRec))
      (s f : Nat) (errs : List (Option Nat × Str)) (j : Nat),
      (∀ p ∈ l, p.1 ≠ j) →
      (batchLoop fetchO level l k acc s f errs).1[j]? = acc[j]? := by
  intro l
  induction l with
  | nil => intro k acc s f errs j hj; rfl
  | cons hd t ih =>
      intro k acc s f errs j hj
      obtain ⟨j0, u0⟩ := hd
      obtain ⟨rec, s2, f2, errs2, -, -, hstep⟩ :=
        batchLoop_cons fetchO level j0 u0 t k acc s f errs
      rw [hstep, ih _ _ _ _ _ j (fun p hp => hj p (List.mem_cons_of_mem _ hp))]
      exact List.getElem?_set_ne (hj (j0, u0) (List.mem_cons_self _ _))

theorem batchLoop_written (fetchO : Nat → BatchFetchOutcome) (level : Str) :
    ∀ (l : List (Nat × Str)) (k : Nat) (acc : List (Option BatchRec))
      (s f : Nat) (errs : List (Option Nat × Str)) (j : Nat) (u : Str),
      (j, u) ∈ l → (l.map Prod.fst).Nodup → j < acc.length →
      ∃ rec, (batchLoop fetchO level l k acc s f errs).1[j]? = some (some rec) ∧
        rec.url = u := by
  intro l
  induction l with
  | nil => intro k acc s f errs j u hmem; simp at hmem
  | cons hd t ih =>
      intro k acc s f errs j u hmem hnd hlen
      obtain ⟨j0, u0⟩ := hd
      obtain ⟨rec, s2, f2, errs2, hurl, -, hstep⟩ :=
        batchLoop_cons fetchO level j0 u0 t k acc s f errs
      rw [hstep]
      rw [List.map_cons] at hnd
      rcases List.mem_cons.mp hmem with heq | htail
      · have hj : j = j0 := congrArg Prod.fst heq
        have hu : u = u0 := congrArg Prod.snd heq
        have hnotin : ∀ p ∈ t, p.1 ≠ j := by
          intro p hp hpj
          refine (List.nodup_cons.mp hnd).1 ?_
          rw [← hj, ← hpj]
          exact List.mem_map.mpr ⟨p, hp, rfl⟩
        rw [batchLoop_untouched fetchO level t _ _ _ _ _ j hnotin]
        rw [← hj, List.getElem?_set_self hlen]
        exact ⟨rec, rfl, by rw [hu]; exact hurl⟩
      · exact ih _ _ _ _ _ j u htail (List.nodup_cons.mp hnd).2
          (by rw [List.length_set]; exact hlen)

theorem foldlSet_length :
    ∀ (l : List (Nat × Str)) (acc : List (Option BatchRec)),
      (l.foldl (fun acc p => acc.set p.1 (some (invalidRec p.2))) acc).length =
        acc.length := by
  intro l
  induction l with
  | nil => intro acc; rfl
  | cons hd t ih =>
      intro acc
      rw [List.foldl_cons, ih, List.length_set]

theorem foldlSet_untouched :
    ∀ (l : List (Nat × Str)) (acc : List (Option BatchRec)) (j : Nat),
      (∀ p ∈ l, p.1 ≠ j) →
      (l.foldl (fun acc p => acc.set p.1 (some (invalidRec p.2))) acc)[j]? =
        acc[j]? := by
  intro l
  induction l with
  | nil => intro acc j hj; rfl
  | cons hd t ih =>
      intro acc j hj
      rw [List.foldl_cons, ih _ j (fun p hp => hj p (List.mem_cons_of_mem _ hp))]
      exact List.getElem?_set_ne (hj hd (List.mem_cons_self _ _))

theorem foldlSet_written :
    ∀ (l : List (Nat × Str)) (acc : List (Option BatchRec)) (j : Nat) (u : Str),
      (j, u) ∈ l → (l.map Prod.fst).Nodup → j < acc.length →
      (l.foldl (fun acc p => acc.set p.1 (some (invalidRec p.2))) acc)[j]? =
        some (some (invalidRec u)) := by
  intro l
  induction l with
  | nil => intro acc j u hmem; simp at hmem
  | cons hd t ih =>
      intro acc j u hmem hnd hlen
      rw [List.map_cons] at hnd
      rcases List.mem_cons.mp hmem with heq | htail
      · subst heq
        rw [List.foldl_cons]
        have hnotin : ∀ p ∈ t, p.1 ≠ j := by
          intro p hp hpj
          refine (List.nodup_cons.mp hnd).1 ?_
          rw [← hpj]
          exact List.mem_map.mpr ⟨p, hp, rfl⟩
        rw [foldlSet_untouched t _ j hnotin]
        exact List.getElem?_set_self hlen
      · rw [List.foldl_cons]
        exact ih _ j u htail (List.nodup_cons.mp hnd).2
          (by rw [List.length_set]; exact hlen)

theorem length_filter_partition {α : Type} (p : α → Bool) (l : List α) :
    (l.filter p).length + (l.filter (fun x => !p x)).length = l.length := by
  induction l with
  | nil => rfl
  | cons a t ih =>
      cases hp : p a <;> simp [List.filter_cons, hp] <;> omega

theorem stealth_config_of_valid {stealth : PyVal}
    (h : validate_stealth_level stealth = none) :
    get_stealth_config_by_level (pyStrOf stealth) = some () := by
  cases stealth with
  | vstr s =>
      by_cases hc : (["minimal".data, "standard".data, "maximum".data]).contains
          (pyToLower s) = true
      · unfold get_stealth_config_by_level pyStrOf
        rw [if_pos hc]
      · exfalso
        unfold validate_stealth_level at h
        dsimp only at h
        rw [if_neg hc] at h
        cases h
  | vint n => simp [validate_stealth_level] at h
  | vfloat q => simp [validate_stealth_level] at h
  | vbool b => simp [validate_stealth_level] at h
  | vnone => simp [validate_stealth_level] at h
  | vlist xs => simp [validate_stealth_level] at h

theorem pyStrList_map_vstr (strs : List Str) :
    pyStrList (.vlist (strs.map .vstr)) = strs := by
  unfold pyStrList
  dsimp only
  rw [List.filterMap_map]
  rw [show ((fun v => match v with | PyVal.vstr s => some s | _ => none) ∘
      PyVal.vstr) = some ∘ (id : Str → Str) from rfl]
  rw [List.filterMap_eq_map, List.map_id]

theorem urls_list_valid (strs : List Str) (h1 : 1 ≤ strs.length)
    (h2 : strs.length ≤ 100) :
    validate_urls_list (.vlist (strs.map .vstr)) = none := by
  unfold validate_urls_list
  dsimp only
  rw [List.length_map]
  rw [if_neg (by omega), if_neg (by omega)]
  have hall : (strs.map PyVal.vstr).all
      (fun u => match u with | PyVal.vstr _ => true | _ => false) = true := by
    refine List.all_eq_true.mpr ?_
    intro x hx
    obtain ⟨s0, -, rfl⟩ := List.mem_map.mp hx
    rfl
  rw [if_pos hall]

/-! ## Claim theorems: tool boundary (C5) and scrape_batch (C6) -/

/-- C5, code evaluation at the failing input: calling `scrape_batch` with a
non-sized `urls` value (`None`, `42`, ...) raises `TypeError` out of the
tool, because the entry `logger.debug` f-string computes `len(urls)` before
`_validate_urls_list` runs — even though that validator returns the
"URLs must be a list" error message for exactly these inputs. -/
theorem batch_entry_typeerror :
    scrape_batch .vnone (.vstr "standard".data) (.vfloat 1)
      (fun _ => .otherErr) = .error () ∧
    scrape_batch (.vint 42) (.vstr "standard".data) (.vfloat 1)
      (fun _ => .otherErr) = .error () ∧
    validate_urls_list .vnone = some "URLs must be a list".data ∧
    validate_urls_list (.vint 42) = some "URLs must be a list".data :=
  ⟨rfl, rfl, rfl, rfl⟩

/-- C6: for a valid list of N strings (1 ≤ N ≤ 100) and valid remaining
parameters, `scrape_batch` returns a record with `total = N`,
`len(results) = N`, slot `i` holding a record whose `url` is input URL `i`
(for every `i`, whatever the validation or fetch outcome), and
`successful + failed = N` — independently of the fetch oracle, so one URL's
failure never deprives later URLs of their attempt and result slot. -/
theorem batch_slot_invariants (strs : List Str) (stealth delay : PyVal)
    (fetchO : Nat → BatchFetchOutcome)
    (h1 : 1 ≤ strs.length) (h2 : strs.length ≤ 100)
    (hs : validate_stealth_level stealth = none)
    (hd : validate_delay delay = none) :
    ∃ r, scrape_batch (.vlist (strs.map .vstr)) stealth delay fetchO = .ok r ∧
      r.total = strs.length ∧
      r.results.length = strs.length ∧
      (∀ i, i < strs.length → ∃ rec, r.results[i]? = some (some rec) ∧
        strs[i]? = some rec.url) ∧
      r.successful + r.failed = strs.length := by
  have hul := urls_list_valid strs h1 h2
  have hstrs := pyStrList_map_vstr strs
  simp only [scrape_batch, pyLen, hul, hs, hd, hstrs, ensure_json_serializable]
  refine ⟨_, rfl, rfl, ?_, ?_, ?_⟩
  · rw [foldlSet_length, batchLoop_length, List.length_replicate]
  · intro i hi
    obtain ⟨u, hu⟩ : ∃ u, strs[i]? = some u := by
      rcases hx : strs[i]? with _ | u
      · rw [List.getElem?_eq_none_iff] at hx
        omega
      · exact ⟨u, rfl⟩
    have henum : (i, u) ∈ strs.enum := List.mk_mem_enum_iff_getElem?.mpr hu
    have hndv : ((strs.enum.filter (fun p => validate_url p.2)).map
        Prod.fst).Nodup :=
      (((List.filter_sublist _).map Prod.fst).nodup (List.nodup_enum_map_fst strs))
    have hndi : ((strs.enum.filter (fun p => !validate_url p.2)).map
        Prod.fst).Nodup :=
      (((List.filter_sublist _).map Prod.fst).nodup (List.nodup_enum_map_fst strs))
    by_cases hv : validate_url u = true
    · have hmemv : (i, u) ∈ strs.enum.filter (fun p => validate_url p.2) :=
        List.mem_filter.mpr ⟨henum, hv⟩
      obtain ⟨rec, hget, hurl⟩ := batchLoop_written fetchO (pyStrOf stealth)
        (strs.enum.filter (fun p => validate_url p.2)) 0
        (List.replicate strs.length none) 0 0 [] i u hmemv hndv
        (by rw [List.length_replicate]; exact hi)
      have hnotin : ∀ p ∈ strs.enum.filter (fun p => !validate_url p.2),
          p.1 ≠ i := by
        intro p hp hpi
        obtain ⟨pi, pu⟩ := p
        obtain ⟨hpe, hpv⟩ := List.mem_filter.mp hp
        have hpu : strs[pi]? = some pu := List.mk_mem_enum_iff_getElem?.mp hpe
        cases hpi
        rw [hu] at hpu
        obtain rfl : u = pu := Option.some.inj hpu
        rw [hv] at hpv
        cases hpv
      rw [foldlSet_untouched _ _ i hnotin, hget]
      exact ⟨rec, rfl, by rw [hu, hurl]⟩
    · have hv' : (!validate_url u) = true := by
        revert hv
        cases validate_url u <;> simp
      have hmemi : (i, u) ∈ strs.enum.filter (fun p => !validate_url p.2) :=
        List.mem_filter.mpr ⟨henum, hv'⟩
      rw [foldlSet_written _ _ i u hmemi hndi
        (by rw [batchLoop_length, List.length_replicate]; exact hi)]
      exact ⟨invalidRec u, rfl, by rw [hu]; rfl⟩

  · have hc := batchLoop_counts fetchO (pyStrOf stealth)
      (strs.enum.filter (fun p => validate_url p.2)) 0
      (List.replicate strs.length none) 0 0 []
    have hpart := length_filter_partition (fun p => validate_url p.2) strs.enum
    have hel : strs.enum.length = strs.length := List.enum_length
    dsimp only
    omega

/-- Witness for C6: a 2-URL batch (one valid, one rejected as localhost)
keeps both slots and sums the counters to 2. -/
theorem batch_slot_invariants_witness :
    ∃ r, scrape_batch (.vlist (["http://example.com/".data,
        "http://localhost".data].map .vstr))
      (.vstr "standard".data) (.vfloat 1) (fun _ => .ok cleanPage) = .ok r ∧
      r.total = 2 ∧ r.results.length = 2 ∧ r.successful + r.failed = 2 := by
  obtain ⟨r, ha, hb, hc, -, he⟩ := batch_slot_invariants
    ["http://example.com/".data, "http://localhost".data]
    (.vstr "standard".data) (.vfloat 1) (fun _ => .ok cleanPage)
    (by decide) (by decide) rfl rfl
  exact ⟨r, ha, hb, hc, he⟩

end Scrapling
